import Mathlib

/-!
Shallow embedding of the rss_ai_reporter pipeline (src/queue_manager.py,
src/rss_fetcher.py, src/content_fetcher.py, src/summarizer.py, src/main.py).

Python dict-shaped article records are modelled as a structure with one field
per key that the embedded code reads or writes; keys that the code reads with
`article.get(k)` (no default) or with a non-trivial default are modelled as
`Option`, keys always read with default `''` / `[]` are plain `String` /
`List String`.  Wall-clock time (`datetime.now()`) and the timestamp parser
(`datetime.fromisoformat`, a library call) are passed in as parameters:
`clock k` is the ISO string stamped on the k-th article added in one call,
`parse s` is `some t` when `fromisoformat` succeeds (time measured in days)
and `none` when it raises `ValueError`.
-/

/-- Python substring test `needle in hay` on lists of characters:
true iff `needle` occurs contiguously in the list (empty needle matches). -/
def listContains (needle : List Char) : List Char → Bool
  | [] => needle.isEmpty
  | c :: rest => needle.isPrefixOf (c :: rest) || listContains needle rest

/-- Python `needle in hay` on strings. -/
def strContains (hay needle : String) : Bool :=
  listContains needle.toList hay.toList

/-- Python lexicographic string comparison `a <= b`, by Unicode codepoint. -/
def lexLe : List Char → List Char → Bool
  | [], _ => true
  | _ :: _, [] => false
  | a :: as, b :: bs =>
    if a.toNat < b.toNat then true
    else if a.toNat = b.toNat then lexLe as bs
    else false

/-- Python `a <= b` on strings (codepoint-lexicographic). -/
def strLe (a b : String) : Bool := lexLe a.toList b.toList

/-- Python regex `\s` character class (ASCII part), as used by the `re.sub`
and `str.strip` calls in content_fetcher and summarizer. -/
def ws_char (c : Char) : Bool :=
  c = ' ' ∨ c = '\t' ∨ c = '\n' ∨ c = '\r' ∨ c = '\x0b' ∨ c = '\x0c'

/-- Python `re.sub(r'<[^>]+>', '', text)` on a character list: at each `<`,
when at least one non-`>` character is followed by a `>`, drop through that
`>` and continue; otherwise the `<` is kept. -/
def strip_tags : List Char → List Char
  | [] => []
  | '<' :: rest =>
    let inner := rest.takeWhile (fun c => c ≠ '>')
    if inner.length ≠ 0 ∧ inner.length < rest.length then
      strip_tags (rest.drop (inner.length + 1))
    else
      '<' :: strip_tags rest
  | c :: rest => c :: strip_tags rest
termination_by l => l.length
decreasing_by
  all_goals simp [List.length_drop]
  all_goals omega

/-- Python `re.sub(r'\s+', ' ', text)`: each maximal run of whitespace
becomes a single space. -/
def collapse_ws : List Char → List Char
  | [] => []
  | c :: rest =>
    if ws_char c then ' ' :: collapse_ws (rest.dropWhile ws_char)
    else c :: collapse_ws rest
termination_by l => l.length
decreasing_by
  all_goals simp
  all_goals have hsuffix : (rest.dropWhile ws_char) <:+ rest := List.dropWhile_suffix ws_char
  all_goals have := hsuffix.length_le
  all_goals omega

/-- Python `str.strip()`: drop whitespace from both ends. -/
def strip_ws (l : List Char) : List Char :=
  ((l.dropWhile ws_char).reverse.dropWhile ws_char).reverse

/-- Python `s.strip()` on a string. -/
def py_strip (s : String) : String := ⟨strip_ws s.toList⟩

/-- The segment of `l` before the first occurrence of `sep`
(`l.split(sep)[0]` in Python, the whole list when `sep` does not occur). -/
def up_to_marker (sep : List Char) : List Char → List Char
  | [] => []
  | c :: rest => if sep.isPrefixOf (c :: rest) then [] else c :: up_to_marker sep rest

/-- The remainder of `l` after the first occurrence of `sep`, when there is
one (so `up_to_marker sep` of it is `l.split(sep)[1]`). -/
def after_first_marker (sep : List Char) : List Char → Option (List Char)
  | [] => none
  | c :: rest =>
    if sep.isPrefixOf (c :: rest) then some ((c :: rest).drop sep.length)
    else after_first_marker sep rest

/-- queue_manager.Priority: the four priority levels of the queue. -/
inductive Priority where
  | URGENT
  | HIGH
  | NORMAL
  | LOW
deriving DecidableEq

/-- Python `Priority.value`: URGENT 1, HIGH 2, NORMAL 3, LOW 4. -/
def Priority.value : Priority → Nat
  | .URGENT => 1
  | .HIGH => 2
  | .NORMAL => 3
  | .LOW => 4

/-- Python `Priority.name` (the enum member's name). -/
def Priority.pname : Priority → String
  | .URGENT => "URGENT"
  | .HIGH => "HIGH"
  | .NORMAL => "NORMAL"
  | .LOW => "LOW"

/-- An article record (the dict flowing through the pipeline). -/
structure Article where
  id : Option String := none
  journal : String := ""
  title : String := ""
  link : String := ""
  published : String := ""
  summary : String := ""
  doi : String := ""
  parser_type : String := ""
  feed_priority : String := ""
  abstract : Option String := none
  authors : List String := []
  affiliations : List String := []
  keywords : List String := []
  priority : Option Nat := none
  priority_name : Option String := none
  added_at : String := ""
  is_research_article : Option Bool := none
  summary_ja : Option String := none
deriving DecidableEq

namespace QueueManager

/-- The list `self.priority_keywords[Priority.URGENT]` from QueueManager.__init__. -/
def priority_keywords_urgent : List String :=
  ["breakthrough", "Nobel", "clinical trial", "COVID", "pandemic"]

/-- The list `self.priority_keywords[Priority.HIGH]` from QueueManager.__init__. -/
def priority_keywords_high : List String :=
  ["CRISPR", "quantum", "AI", "machine learning", "cancer", "vaccine"]

/-- The list `self.high_impact_journals` from QueueManager.__init__. -/
def high_impact_journals : List String := ["Nature", "Science", "Cell", "NEJM"]

/-- QueueManager.calculate_priority: urgent keywords over lowered
title+abstract, then high keywords, then the journal allow-list, then the
`d41586` link pattern, else NORMAL. -/
def calculate_priority (article : Article) : Priority :=
  let title := article.title.toLower
  let abstract := (article.abstract.getD "").toLower
  let search_text := title ++ " " ++ abstract
  if priority_keywords_urgent.any (fun k => strContains search_text k.toLower) then .URGENT
  else if priority_keywords_high.any (fun k => strContains search_text k.toLower) then .HIGH
  else if article.journal ∈ high_impact_journals then .HIGH
  else if strContains article.link "d41586" then .LOW
  else .NORMAL

/-- Sort key of QueueManager.add_articles:
`(x.get('priority', Priority.NORMAL.value), x.get('added_at', ''))`. -/
def sort_key (a : Article) : Nat × String :=
  (a.priority.getD Priority.NORMAL.value, a.added_at)

/-- Python tuple comparison of sort keys (`<=`, lexicographic on the pair);
`queue.sort(key=...)` is the stable sort by this relation. -/
def key_le (a b : Article) : Bool :=
  if (sort_key a).1 < (sort_key b).1 then true
  else if (sort_key a).1 = (sort_key b).1 then strLe (sort_key a).2 (sort_key b).2
  else false

/-- The `for article in articles` loop of QueueManager.add_articles: skip a
candidate whose id is falsy (`None` or `''`) or already in `existing_ids`,
otherwise stamp priority, priority_name and added_at (`clock count` models
`datetime.now().isoformat()`), append it, record its id, bump the count. -/
def add_loop (clock : Nat → String) :
    List Article → List Article → List (Option String) → Nat → List Article × Nat
  | [], queue, _, count => (queue, count)
  | article :: rest, queue, existing_ids, count =>
    if article.id.getD "" = "" ∨ article.id ∈ existing_ids then
      add_loop clock rest queue existing_ids count
    else
      let p := calculate_priority article
      let stamped := { article with
        priority := some p.value
        priority_name := some p.pname
        added_at := clock count }
      add_loop clock rest (queue ++ [stamped]) (existing_ids ++ [article.id]) (count + 1)

/-- QueueManager.add_articles: run the loop over the loaded queue (with
`existing_ids = {item.get('id') for item in queue}`), then sort the whole
queue stably by `(priority, added_at)` and persist; returns the new queue
and `added_count`. -/
def add_articles (clock : Nat → String) (queue articles : List Article) :
    List Article × Nat :=
  let r := add_loop clock articles queue (queue.map (fun a => a.id)) 0
  (r.1.mergeSort key_le, r.2)

/-- The per-item age test of QueueManager.get_batch: parse `added_at`; keep
the item when `added_at >= cutoff_date`; on `ValueError` the source comments
"日付形式が無効な場合はそのまま含める" and keeps the item as well. -/
def keep_current (parse : String → Option Int) (cutoff : Int) (a : Article) : Bool :=
  match parse a.added_at with
  | some t => decide (cutoff ≤ t)
  | none => true

/-- QueueManager.get_batch with `cutoff = now - max_age_days` (time in days):
filter the loaded queue by the age test, return the first `batch_size`
survivors as the batch and persist the rest back. -/
def get_batch (parse : String → Option Int) (now max_age_days : Int)
    (batch_size : Nat) (queue : List Article) : List Article × List Article :=
  let cutoff := now - max_age_days
  let current_articles := queue.filter (keep_current parse cutoff)
  (current_articles.take batch_size, current_articles.drop batch_size)

end QueueManager

namespace RSSFetcher

/-- A parsed feed entry as rss_fetcher.fetch_new_articles reads it.  `id` and
`link` model dict keys that may be absent (`entry.get`); `author_names` holds
the `name` values found while iterating `entry.authors` (an entry without an
`authors` attribute and one with an empty list both yield `[]`, which the
source treats identically); `dc_creator` / `author` / `dc_identifier` model
the corresponding optional attributes. -/
structure Entry where
  id : Option String := none
  link : Option String := none
  title : String := ""
  published : String := ""
  summary : String := ""
  author_names : List String := []
  dc_creator : Option String := none
  author : Option String := none
  dc_identifier : Option String := none
deriving DecidableEq

/-- RSSFetcher._extract_authors: names from `entry.authors`, then
`dc_creator`, and `entry.author` only when the list is still empty. -/
def extract_authors (e : Entry) : List String :=
  let authors := e.author_names ++
    (match e.dc_creator with
     | some c => [c]
     | none => [])
  if authors = [] then
    match e.author with
    | some a => [a]
    | none => []
  else authors

/-- RSSFetcher._extract_doi: `dc_identifier` when it mentions doi.org, else
the link when it mentions doi.org, else rebuild from the `/doi/` segment of
the link (`parts[1].split('?')[0]`). -/
def extract_doi (e : Entry) : String :=
  let doi :=
    match e.dc_identifier with
    | some ident => if strContains ident "doi.org" then ident else ""
    | none => ""
  if doi = "" then
    match e.link with
    | none => ""
    | some l =>
      if strContains l "doi.org" then l
      else if strContains l "/doi/" then
        match after_first_marker "/doi/".toList l.toList with
        | some tail =>
          "https://doi.org/" ++
            String.mk (up_to_marker "?".toList (up_to_marker "/doi/".toList tail))
        | none => ""
      else ""
  else doi

/-- The `for entry in feed.entries` loop of RSSFetcher.fetch_new_articles
(lines 106-124) for one feed: compute
`article_id = entry.get('id', entry.get('link', ''))`; when it is non-empty
and not a key of `seen_articles`, emit the built article and record
`seen_articles[article_id] = now_iso`; otherwise move on.  Returns the
emitted articles and the updated seen mapping. -/
def process_entries (now_iso journal_name parser_cfg priority_cfg : String)
    (entries : List Entry) (seen : List (String × String)) :
    List Article × List (String × String) :=
  match entries with
  | [] => ([], seen)
  | e :: rest =>
    let article_id := e.id.getD (e.link.getD "")
    if article_id ≠ "" ∧ article_id ∉ seen.map Prod.fst then
      let article : Article := {
        id := some article_id
        journal := journal_name
        title := e.title
        link := e.link.getD ""
        published := e.published
        summary := e.summary
        authors := extract_authors e
        doi := extract_doi e
        parser_type := parser_cfg
        feed_priority := priority_cfg }
      let r := process_entries now_iso journal_name parser_cfg priority_cfg rest
        (seen ++ [(article_id, now_iso)])
      (article :: r.1, r.2)
    else
      process_entries now_iso journal_name parser_cfg priority_cfg rest seen

end RSSFetcher

namespace ContentFetcher

/-- ContentFetcher._clean_html: strip tags, collapse whitespace runs, strip. -/
def clean_html (s : String) : String :=
  ⟨strip_ws (collapse_ws (strip_tags s.toList))⟩

/-- The title deny-list of ContentFetcher.is_research_article. -/
def news_keywords : List String :=
  ["news", "comment", "editorial", "opinion", "daily briefing", "career", "spotlight"]

/-- ContentFetcher.is_research_article: URL patterns first (`s41586` research,
`d41586` news, Science DOI pattern), then the lowered-title deny-list,
defaulting to research. -/
def is_research_article (url : String) (article : Article) : Bool :=
  if strContains url "s41586" then true
  else if strContains url "d41586" then false
  else if strContains url "science.org/doi" && strContains url "/science." then true
  else if news_keywords.any (fun k => strContains article.title.toLower k) then false
  else true

/-- The `details` dict returned by a per-journal parser strategy: each key is
present only when the corresponding selector chain found something. -/
structure FetchedDetails where
  abstract : Option String := none
  authors : Option (List String) := none
  affiliations : Option (List String) := none
  keywords : Option (List String) := none
deriving DecidableEq

/-- Python `article.update(details)`: keys present in `details` overwrite the
article's fields, absent keys leave them unchanged. -/
def apply_details (a : Article) (d : FetchedDetails) : Article :=
  { a with
    abstract := match d.abstract with
      | some x => some x
      | none => a.abstract
    authors := d.authors.getD a.authors
    affiliations := d.affiliations.getD a.affiliations
    keywords := d.keywords.getD a.keywords }

/-- ContentFetcher.fetch_article_details.  The network fetch, DOM parse and
per-journal strategy dispatch inside the `try` block are abstracted into
`details : Option FetchedDetails`: `some d` is the details dict the selected
parser returned, `none` models an exception raised anywhere in the `try`
block (timeout, HTTP error, DOM exception), which the `except` clause
catches.  Control flow and every field update mirror lines 45-145. -/
def fetch_article_details (details : Option FetchedDetails) (article : Article) :
    Article :=
  let url := article.link
  if url = "" then article
  else
    let is_research := is_research_article url article
    let a1 := { article with is_research_article := some is_research }
    if is_research = false then
      if a1.summary ≠ "" then { a1 with abstract := some (clean_html a1.summary) }
      else a1
    else
      match details with
      | none =>
        if a1.summary ≠ "" then { a1 with abstract := some (clean_html a1.summary) }
        else a1
      | some d =>
        let a2 := apply_details a1 d
        if a2.abstract.getD "" = "" ∧ a2.summary ≠ "" then
          { a2 with abstract := some (clean_html a2.summary) }
        else a2

end ContentFetcher

namespace Summarizer

/-- Leftmost match length of a regex of shape `PRE[^\s]+` at the head of `l`:
the literal prefix `pre` followed by at least one non-whitespace character,
matched greedily.  `none` when the pattern does not match at the head. -/
def pref_run_len (pre l : List Char) : Option Nat :=
  if pre.isPrefixOf l then
    let run := (l.drop pre.length).takeWhile (fun c => ws_char c = false)
    if run.length = 0 then none else some (pre.length + run.length)
  else none

theorem pref_run_len_pos {pre l : List Char} {k : Nat}
    (h : pref_run_len pre l = some k) : 0 < k := by
  simp only [pref_run_len] at h
  split at h
  · split at h
    · exact absurd h (by simp)
    · rename_i hrun
      rw [Option.some_inj] at h
      omega
  · exact absurd h (by simp)

/-- Match length of `https?://[^\s]+` at the head of `l`: the regex engine
tries the branch with `s` first, then without. -/
def url_match_len (l : List Char) : Option Nat :=
  match pref_run_len "https://".toList l with
  | some k => some k
  | none => pref_run_len "http://".toList l

theorem url_match_len_pos {l : List Char} {k : Nat}
    (h : url_match_len l = some k) : 0 < k := by
  unfold url_match_len at h
  split at h
  · rename_i heq
    rw [Option.some_inj] at h
    subst h
    exact pref_run_len_pos heq
  · exact pref_run_len_pos h

/-- Python `re.sub(r'https?://[^\s]+', '', text)`: delete each leftmost
non-overlapping URL match, scanning left to right. -/
def strip_urls : List Char → List Char
  | [] => []
  | c :: rest =>
    match h : url_match_len (c :: rest) with
    | some k => strip_urls ((c :: rest).drop k)
    | none => c :: strip_urls rest
termination_by l => l.length
decreasing_by
  all_goals simp [List.length_drop]
  · have := url_match_len_pos h
    omega

/-- Python `re.sub(r'doi:10\.[^\s]+', '', text)`. -/
def strip_doi : List Char → List Char
  | [] => []
  | c :: rest =>
    match h : pref_run_len "doi:10.".toList (c :: rest) with
    | some k => strip_doi ((c :: rest).drop k)
    | none => c :: strip_doi rest
termination_by l => l.length
decreasing_by
  all_goals simp [List.length_drop]
  · have := pref_run_len_pos h
    omega

/-- The literal `Nature, Published online:` of the meaningful-content regex. -/
def nature_pub : List Char := "Nature, Published online:".toList

/-- The literal `Science, Published online:` of the meaningful-content regex. -/
def science_pub : List Char := "Science, Published online:".toList

/-- Python `re.sub(r'(Nature|Science), Published online:', '', text)`:
delete each leftmost occurrence of either literal, `Nature` branch first. -/
def strip_pub_online : List Char → List Char
  | [] => []
  | c :: rest =>
    if nature_pub.isPrefixOf (c :: rest) then
      strip_pub_online ((c :: rest).drop nature_pub.length)
    else if science_pub.isPrefixOf (c :: rest) then
      strip_pub_online ((c :: rest).drop science_pub.length)
    else c :: strip_pub_online rest
termination_by l => l.length
decreasing_by
  all_goals simp [List.length_drop]
  · have hn : 0 < nature_pub.length := by decide
    omega
  · have hs : 0 < science_pub.length := by decide
    omega

/-- The title-keyword bucket chain of Summarizer._generate_fallback_summary
(lines 144-157): first matching bucket wins, else the quoted-title default. -/
def fallback_title_part (title : String) : String :=
  let t := title.toLower
  if ["cancer", "tumor", "腫瘍", "がん"].any (fun w => strContains t w) then
    "がん研究に関する論文。"
  else if ["quantum", "量子"].any (fun w => strContains t w) then
    "量子技術に関する研究。"
  else if ["ai", "machine learning", "neural", "人工知能", "機械学習"].any
      (fun w => strContains t w) then
    "AI・機械学習分野の研究。"
  else if ["climate", "気候", "carbon", "炭素"].any (fun w => strContains t w) then
    "気候・環境科学の研究。"
  else if ["crispr", "gene", "遺伝子"].any (fun w => strContains t w) then
    "遺伝子編集・バイオテクノロジーの研究。"
  else "「" ++ title ++ "」に関する研究。"

/-- The author clause of the fallback summary (lines 160-166), used only when
the author list is non-empty. -/
def fallback_authors_part (authors : List String) : String :=
  if authors.length = 1 then authors.headD "" ++ "らによる"
  else if authors.length ≤ 3 then String.intercalate ", " authors ++ "らによる"
  else authors.headD "" ++ "ら" ++ toString authors.length ++ "名の研究チームによる"

/-- The three keyword scans over the lowered abstract (lines 174-186), each
contributing at most one tag, in source order. -/
def fallback_important_words (abstract : String) : List String :=
  let al := abstract.toLower
  (if ["breakthrough", "novel", "significant", "innovative", "discovery"].any
      (fun w => strContains al w) then ["革新的"] else []) ++
  (if ["治療", "therapy", "treatment"].any (fun w => strContains al w) then
    ["治療法開発"] else []) ++
  (if ["効率", "efficiency", "improvement"].any (fun w => strContains al w) then
    ["効率向上"] else [])

/-- The first-sentence clause of the fallback summary (lines 192-205): only
for abstracts over 100 characters, after tag/URL/DOI cleaning; the sentence
must clear the publication-marker filter and a 20..80 length window. -/
def fallback_sentence_part (abstract : String) : List String :=
  if abstract ≠ "" ∧ abstract.length > 100 then
    let clean_abstract := strip_ws (strip_doi (strip_urls (strip_tags abstract.toList)))
    let meaningful_content := strip_ws (strip_pub_online clean_abstract)
    if meaningful_content.length > 30 then
      let first_sentence := up_to_marker "。".toList (up_to_marker ".".toList meaningful_content)
      if 20 < first_sentence.length ∧ first_sentence.length < 80 then
        ["この研究では" ++ String.mk first_sentence ++ "。"]
      else []
    else []
  else []

/-- The closing sentence appended when the joined text is still short. -/
def fallback_tail : String := "詳細な要約はオリジナル論文を参照されたい。"

/-- Summarizer._generate_fallback_summary: assemble the `parts` list in
source order (title bucket, authors, journal, important words, first
sentence, closing clause chosen by `len(parts) > 1`), join, and pad with
`fallback_tail` when the result is under 150 characters. -/
def generate_fallback_summary (title abstract : String) (authors : List String)
    (journal : String) : String :=
  let parts : List String := if title ≠ "" then [fallback_title_part title] else []
  let parts := parts ++ (if authors ≠ [] then [fallback_authors_part authors] else [])
  let parts := parts ++ (if journal ≠ "" then [journal ++ "誌に掲載された"] else [])
  let parts := parts ++
    (if abstract ≠ "" then
      (let iw := fallback_important_words abstract
       if iw ≠ [] then [String.intercalate ", " iw ++ "に関する"] else [])
     else [])
  let parts := parts ++ fallback_sentence_part abstract
  let parts := parts ++
    [if parts.length > 1 then "の科学的知見を報告している。" else "科学的知見を報告している。"]
  let fallback_text := String.join parts
  if fallback_text.length < 150 then fallback_text ++ fallback_tail else fallback_text

/-- The fixed message returned by the minimal-content guard (line 48). -/
def no_content_msg : String := "要約生成不可：タイトルと要旨が取得できませんでした。"

/-- Summarizer.summarize_article.  The Gemini call is abstracted into
`api : Option String`: `none` models any exception from the API call or an
invalid response object, `some s` a response whose `.text` is `s`.  The
source then takes `summary = response.text.strip() if response.text else ""`,
raises (caught by the same `try`, yielding the fallback) when the result is
empty, swaps in the fallback when it is under 50 characters, and otherwise
returns it; both-empty title and abstract short-circuit to a fixed message
before the call. -/
def summarize_article (api : Option String) (article : Article) : String :=
  let title := article.title
  let abstract := article.abstract.getD article.summary
  let authors := article.authors
  let journal := article.journal
  if title = "" ∧ abstract = "" then no_content_msg
  else
    match api with
    | none => generate_fallback_summary title abstract authors journal
    | some s =>
      let summary := if s = "" then "" else py_strip s
      if summary = "" then generate_fallback_summary title abstract authors journal
      else if summary.length < 50 then generate_fallback_summary title abstract authors journal
      else summary

end Summarizer

namespace Pipeline

/-- data/filter_config.json as PaperSummarizerPipeline.filter_articles reads
it: `includeKw` and `excludeKw` model the JSON keys `include` and `exclude`
(lower-cased on load), `research_only` defaults to true. -/
structure FilterConfig where
  includeKw : List String := []
  excludeKw : List String := []
  research_only : Bool := true
deriving DecidableEq

/-- The search corpus of filter_articles (lines 100-105):
`" ".join([title, abstract, summary, " ".join(keywords)]).lower()`. -/
def search_corpus (a : Article) : String :=
  (String.intercalate " "
    [a.title, a.abstract.getD "", a.summary, String.intercalate " " a.keywords]).toLower

/-- The per-article keep/drop decision of filter_articles: the research-only
URL test (`d41586`), then the exclude keywords, then — when the include list
is non-empty — the include keywords. -/
def keep_article (cfg : FilterConfig) (a : Article) : Bool :=
  let include_keywords := cfg.includeKw.map String.toLower
  let exclude_keywords := cfg.excludeKw.map String.toLower
  if cfg.research_only ∧ strContains a.link "d41586" then false
  else
    let search_text := search_corpus a
    if exclude_keywords.any (fun k => strContains search_text k) then false
    else if include_keywords ≠ [] ∧
        include_keywords.any (fun k => strContains search_text k) = false then false
    else true

/-- PaperSummarizerPipeline.filter_articles: keep exactly the articles that
pass `keep_article`, in order. -/
def filter_articles (cfg : FilterConfig) (articles : List Article) : List Article :=
  articles.filter (keep_article cfg)

end Pipeline

/-! Spec-side readings used to compare the code with the specification text. -/

/-- The text the spec says priority keywords are searched in: the
concatenation of title and abstract, case-folded. -/
def priority_corpus (a : Article) : String :=
  a.title.toLower ++ " " ++ (a.abstract.getD "").toLower

/-- Spec-side reading of a keyword tier: some keyword of `kws` occurs
case-insensitively in the priority corpus. -/
def keyword_hit (kws : List String) (a : Article) : Prop :=
  ∃ k ∈ kws, strContains (priority_corpus a) k.toLower = true

/-! Concrete inputs used to instantiate the theorems below. -/

/-- A concrete stand-in for `datetime.now().isoformat()` inside one
add_articles call. -/
def demo_clock : Nat → String := fun k => toString k

/-- A concrete stand-in for `datetime.fromisoformat`: it accepts exactly the
timestamp `day-10` (day 10) and raises `ValueError` on everything else. -/
def demo_parse : String → Option Int := fun s => if s = "day-10" then some 10 else none

/-- A queue candidate with a valid id. -/
def demo_article : Article := { id := some "art-1", title := "Hello" }

/-- A queue candidate whose id is the empty string (falsy in Python). -/
def invalid_article : Article := { id := some "" }

/-- A queued item whose `added_at` does not parse as a timestamp. -/
def stale_article : Article := { id := some "stale-1", added_at := "not-a-timestamp" }

/-- A queued item enqueued on day 10. -/
def old_article : Article := { id := some "old-1", added_at := "day-10" }

/-- Second queued item from day 10, distinct id. -/
def fresh_article : Article := { id := some "new-1", added_at := "day-10" }

/-- A feed entry that has neither a guid (`id`) nor a link. -/
def ghost_entry : RSSFetcher.Entry := {}

/-- A research-classified article (link matches the `s41586` pattern) with a
non-empty feed summary. -/
def research_article_demo : Article :=
  { id := some "a1", journal := "Nature", title := "A study",
    link := "https://www.nature.com/articles/s41586-024-0001",
    summary := "<p>feed summary</p>", authors := ["Alice"] }

/-! Order-theoretic facts about the sort comparator of add_articles. -/

theorem lexLe_total : ∀ xs ys : List Char, (lexLe xs ys || lexLe ys xs) = true
  | [], ys => by simp [lexLe]
  | x :: xs, [] => by simp [lexLe]
  | x :: xs, y :: ys => by
    simp only [lexLe]
    rcases Nat.lt_trichotomy x.toNat y.toNat with h | h | h
    · rw [if_pos h]
      simp
    · rw [if_neg (show ¬ x.toNat < y.toNat by omega), if_pos h,
        if_neg (show ¬ y.toNat < x.toNat by omega), if_pos h.symm]
      exact lexLe_total xs ys
    · rw [if_pos h]
      simp

theorem lexLe_trans : ∀ xs ys zs : List Char,
    lexLe xs ys = true → lexLe ys zs = true → lexLe xs zs = true
  | [], _, _, _, _ => rfl
  | x :: xs, [], zs, h, _ => by simp [lexLe] at h
  | x :: xs, y :: ys, [], _, h2 => by simp [lexLe] at h2
  | x :: xs, y :: ys, z :: zs, h1, h2 => by
    simp only [lexLe] at h1 h2 ⊢
    rcases Nat.lt_trichotomy x.toNat y.toNat with hxy | hxy | hxy
    · rcases Nat.lt_trichotomy y.toNat z.toNat with hyz | hyz | hyz
      · rw [if_pos (show x.toNat < z.toNat by omega)]
      · rw [if_pos (show x.toNat < z.toNat by omega)]
      · rw [if_neg (show ¬ y.toNat < z.toNat by omega),
          if_neg (show ¬ y.toNat = z.toNat by omega)] at h2
        simp at h2
    · rcases Nat.lt_trichotomy y.toNat z.toNat with hyz | hyz | hyz
      · rw [if_pos (show x.toNat < z.toNat by omega)]
      · rw [if_neg (show ¬ x.toNat < y.toNat by omega), if_pos hxy] at h1
        rw [if_neg (show ¬ y.toNat < z.toNat by omega), if_pos hyz] at h2
        rw [if_neg (show ¬ x.toNat < z.toNat by omega),
          if_pos (show x.toNat = z.toNat by omega)]
        exact lexLe_trans xs ys zs h1 h2
      · rw [if_neg (show ¬ y.toNat < z.toNat by omega),
          if_neg (show ¬ y.toNat = z.toNat by omega)] at h2
        simp at h2
    · rw [if_neg (show ¬ x.toNat < y.toNat by omega),
        if_neg (show ¬ x.toNat = y.toNat by omega)] at h1
      simp at h1

theorem strLe_total (a b : String) : (strLe a b || strLe b a) = true :=
  lexLe_total a.toList b.toList

theorem strLe_trans {a b c : String} (h1 : strLe a b = true) (h2 : strLe b c = true) :
    strLe a c = true :=
  lexLe_trans a.toList b.toList c.toList h1 h2

theorem key_le_total (a b : Article) :
    (QueueManager.key_le a b || QueueManager.key_le b a) = true := by
  unfold QueueManager.key_le
  rcases Nat.lt_trichotomy (QueueManager.sort_key a).1 (QueueManager.sort_key b).1 with h | h | h
  · rw [if_pos h]
    simp
  · rw [if_neg (show ¬ (QueueManager.sort_key a).1 < (QueueManager.sort_key b).1 by omega),
      if_pos h,
      if_neg (show ¬ (QueueManager.sort_key b).1 < (QueueManager.sort_key a).1 by omega),
      if_pos h.symm]
    exact strLe_total _ _
  · rw [if_pos h]
    simp

theorem key_le_trans (a b c : Article) (h1 : QueueManager.key_le a b = true)
    (h2 : QueueManager.key_le b c = true) : QueueManager.key_le a c = true := by
  unfold QueueManager.key_le at h1 h2 ⊢
  rcases Nat.lt_trichotomy (QueueManager.sort_key a).1 (QueueManager.sort_key b).1 with
    hab | hab | hab
  · rcases Nat.lt_trichotomy (QueueManager.sort_key b).1 (QueueManager.sort_key c).1 with
      hbc | hbc | hbc
    · rw [if_pos (show (QueueManager.sort_key a).1 < (QueueManager.sort_key c).1 by omega)]
    · rw [if_pos (show (QueueManager.sort_key a).1 < (QueueManager.sort_key c).1 by omega)]
    · rw [if_neg (show ¬ (QueueManager.sort_key b).1 < (QueueManager.sort_key c).1 by omega),
        if_neg (show ¬ (QueueManager.sort_key b).1 = (QueueManager.sort_key c).1 by omega)] at h2
      simp at h2
  · rcases Nat.lt_trichotomy (QueueManager.sort_key b).1 (QueueManager.sort_key c).1 with
      hbc | hbc | hbc
    · rw [if_pos (show (QueueManager.sort_key a).1 < (QueueManager.sort_key c).1 by omega)]
    · rw [if_neg (show ¬ (QueueManager.sort_key a).1 < (QueueManager.sort_key b).1 by omega),
        if_pos hab] at h1
      rw [if_neg (show ¬ (QueueManager.sort_key b).1 < (QueueManager.sort_key c).1 by omega),
        if_pos hbc] at h2
      rw [if_neg (show ¬ (QueueManager.sort_key a).1 < (QueueManager.sort_key c).1 by omega),
        if_pos (show (QueueManager.sort_key a).1 = (QueueManager.sort_key c).1 by omega)]
      exact strLe_trans h1 h2
    · rw [if_neg (show ¬ (QueueManager.sort_key b).1 < (QueueManager.sort_key c).1 by omega),
        if_neg (show ¬ (QueueManager.sort_key b).1 = (QueueManager.sort_key c).1 by omega)] at h2
      simp at h2
  · rw [if_neg (show ¬ (QueueManager.sort_key a).1 < (QueueManager.sort_key b).1 by omega),
      if_neg (show ¬ (QueueManager.sort_key a).1 = (QueueManager.sort_key b).1 by omega)] at h1
    simp at h1

theorem key_le_iff (a b : Article) : QueueManager.key_le a b = true ↔
    (a.priority.getD Priority.NORMAL.value < b.priority.getD Priority.NORMAL.value ∨
     (a.priority.getD Priority.NORMAL.value = b.priority.getD Priority.NORMAL.value ∧
      strLe a.added_at b.added_at = true)) := by
  unfold QueueManager.key_le QueueManager.sort_key
  rcases Nat.lt_trichotomy (a.priority.getD Priority.NORMAL.value)
      (b.priority.getD Priority.NORMAL.value) with h | h | h
  · rw [if_pos h]
    simp [h]
  · rw [if_neg (show ¬ a.priority.getD Priority.NORMAL.value <
        b.priority.getD Priority.NORMAL.value by omega), if_pos h]
    simp [h]
  · rw [if_neg (show ¬ a.priority.getD Priority.NORMAL.value <
        b.priority.getD Priority.NORMAL.value by omega),
      if_neg (show ¬ a.priority.getD Priority.NORMAL.value =
        b.priority.getD Priority.NORMAL.value by omega)]
    constructor
    · intro hx
      exact absurd hx (by simp)
    · rintro (h' | ⟨h', _⟩) <;> omega

/-! Facts about the candidate loop of add_articles. -/

namespace QueueManager

theorem add_loop_length (clock : Nat → String) : ∀ (arts queue : List Article)
    (ex : List (Option String)) (c : Nat),
    ((add_loop clock arts queue ex c).1).length + c =
      (add_loop clock arts queue ex c).2 + queue.length
  | [], queue, ex, c => by
    simp only [add_loop]
    omega
  | a :: rest, queue, ex, c => by
    simp only [add_loop]
    split
    · exact add_loop_length clock rest queue ex c
    · have ih := add_loop_length clock rest
        (queue ++ [{ a with
          priority := some (calculate_priority a).value
          priority_name := some (calculate_priority a).pname
          added_at := clock c }]) (ex ++ [a.id]) (c + 1)
      simp only [List.length_append, List.length_cons, List.length_nil] at ih ⊢
      omega

theorem add_loop_nodup (clock : Nat → String) : ∀ (arts queue : List Article)
    (ex : List (Option String)) (c : Nat),
    ((queue.map fun x => x.id).Nodup) → (∀ i ∈ queue.map fun x => x.id, i ∈ ex) →
    (((add_loop clock arts queue ex c).1).map fun x => x.id).Nodup
  | [], queue, ex, c, hnd, _ => by simpa [add_loop] using hnd
  | a :: rest, queue, ex, c, hnd, hsub => by
    simp only [add_loop]
    split
    · exact add_loop_nodup clock rest queue ex c hnd hsub
    · rename_i hcond
      push_neg at hcond
      apply add_loop_nodup clock rest _ _ _
      · have hnotin : a.id ∉ queue.map fun x => x.id := fun hmem => hcond.2 (hsub _ hmem)
        simpa [List.nodup_append, hnd] using hnotin
      · intro i hi
        simp only [List.map_append, List.map_cons, List.map_nil, List.mem_append,
          List.mem_singleton] at hi
        rcases hi with hi | hi
        · exact List.mem_append_left _ (hsub _ hi)
        · simp [hi]

theorem add_loop_single (clock : Nat → String) (queue : List Article)
    (ex : List (Option String)) (a : Article) :
    add_loop clock [a] queue ex 0 =
      if a.id.getD "" = "" ∨ a.id ∈ ex then (queue, 0)
      else (queue ++ [{ a with
        priority := some (calculate_priority a).value
        priority_name := some (calculate_priority a).pname
        added_at := clock 0 }], 1) := by
  simp only [add_loop]

theorem add_loop_erase_invalid (clock : Nat → String) (ys : List Article) (a : Article)
    (ha : a.id.getD "" = "") : ∀ (xs queue : List Article)
    (ex : List (Option String)) (c : Nat),
    add_loop clock (xs ++ a :: ys) queue ex c = add_loop clock (xs ++ ys) queue ex c
  | [], queue, ex, c => by
    simp only [List.nil_append, add_loop]
    rw [if_pos (Or.inl ha)]
  | x :: xs, queue, ex, c => by
    simp only [List.cons_append, add_loop]
    split
    · exact add_loop_erase_invalid clock ys a ha xs queue ex c
    · exact add_loop_erase_invalid clock ys a ha xs _ _ _

end QueueManager

/-! Translations between `List.any` conditions in the code and the
existential phrasing of the spec. -/

theorem any_toLower_keyword (kws : List String) (s : String) :
    (kws.any fun k => strContains s k.toLower) = true ↔
      ∃ k ∈ kws, strContains s k.toLower = true := by
  simp [List.any_eq_true]

theorem any_map_toLower (kws : List String) (s : String) :
    ((kws.map String.toLower).any fun k => strContains s k) = true ↔
      ∃ k ∈ kws, strContains s k.toLower = true := by
  rw [List.any_map]
  constructor
  · intro h
    rw [List.any_eq_true] at h
    obtain ⟨k, hk, hp⟩ := h
    exact ⟨k, hk, hp⟩
  · rintro ⟨k, hk, hp⟩
    rw [List.any_eq_true]
    exact ⟨k, hk, hp⟩

/-! Non-emptiness facts for the fallback summary. -/

theorem join_append_singleton (l : List String) (s : String) :
    String.join (l ++ [s]) = String.join l ++ s := by
  simp [String.join, List.foldl_append]

theorem join_with_last_ne_empty (l : List String) (s : String) (hs : s.length ≠ 0) :
    String.join (l ++ [s]) ≠ "" := by
  intro h
  have hlen := congrArg String.length h
  rw [join_append_singleton, String.length_append] at hlen
  simp at hlen
  omega

theorem append_right_ne_empty (a b : String) (hb : b.length ≠ 0) : a ++ b ≠ "" := by
  intro h
  have hlen := congrArg String.length h
  rw [String.length_append] at hlen
  simp at hlen
  omega

theorem pad_join_ne_empty (l : List String) (s t : String) (hs : s.length ≠ 0) :
    (if (String.join (l ++ [s])).length < 150 then String.join (l ++ [s]) ++ t
     else String.join (l ++ [s])) ≠ "" := by
  split
  · intro h
    have hlen := congrArg String.length h
    rw [String.length_append, join_append_singleton, String.length_append] at hlen
    simp at hlen
    omega
  · exact join_with_last_ne_empty l s hs

theorem ite_length_ne_zero (c : Prop) [Decidable c] (s t : String)
    (hs : s.length ≠ 0) (ht : t.length ≠ 0) : (if c then s else t).length ≠ 0 := by
  split
  · exact hs
  · exact ht

theorem generate_fallback_summary_ne_empty (title abstract : String)
    (authors : List String) (journal : String) :
    Summarizer.generate_fallback_summary title abstract authors journal ≠ "" := by
  unfold Summarizer.generate_fallback_summary
  dsimp only
  exact pad_join_ne_empty _ _ _ (ite_length_ne_zero _ _ _ (by decide) (by decide))

/-- C2: calculate_priority performs its checks in exactly the stated order:
URGENT iff an urgent-tier keyword occurs case-insensitively in title+abstract;
otherwise HIGH iff a high-tier keyword occurs or the journal is in the fixed
high-impact allow-list; otherwise LOW iff the link contains `d41586`;
otherwise NORMAL. -/
theorem calculate_priority_order (a : Article) :
    (QueueManager.calculate_priority a = Priority.URGENT ↔
      keyword_hit QueueManager.priority_keywords_urgent a) ∧
    (QueueManager.calculate_priority a = Priority.HIGH ↔
      (¬ keyword_hit QueueManager.priority_keywords_urgent a ∧
        (keyword_hit QueueManager.priority_keywords_high a ∨
          a.journal ∈ QueueManager.high_impact_journals))) ∧
    (QueueManager.calculate_priority a = Priority.LOW ↔
      (¬ keyword_hit QueueManager.priority_keywords_urgent a ∧
       ¬ keyword_hit QueueManager.priority_keywords_high a ∧
       a.journal ∉ QueueManager.high_impact_journals ∧
       strContains a.link "d41586" = true)) ∧
    (QueueManager.calculate_priority a = Priority.NORMAL ↔
      (¬ keyword_hit QueueManager.priority_keywords_urgent a ∧
       ¬ keyword_hit QueueManager.priority_keywords_high a ∧
       a.journal ∉ QueueManager.high_impact_journals ∧
       strContains a.link "d41586" = false)) := by
  have e : QueueManager.calculate_priority a =
      (if QueueManager.priority_keywords_urgent.any
          (fun k => strContains (priority_corpus a) k.toLower) then Priority.URGENT
       else if QueueManager.priority_keywords_high.any
          (fun k => strContains (priority_corpus a) k.toLower) then Priority.HIGH
       else if a.journal ∈ QueueManager.high_impact_journals then Priority.HIGH
       else if strContains a.link "d41586" then Priority.LOW
       else Priority.NORMAL) := rfl
  rw [e]
  have hu := any_toLower_keyword QueueManager.priority_keywords_urgent (priority_corpus a)
  have hh := any_toLower_keyword QueueManager.priority_keywords_high (priority_corpus a)
  by_cases h1 : keyword_hit QueueManager.priority_keywords_urgent a
  · rw [if_pos (hu.mpr h1)]
    refine ⟨?_, ?_, ?_, ?_⟩ <;> simp [h1]
  · rw [if_neg (fun hc => h1 (hu.mp hc))]
    by_cases h2 : keyword_hit QueueManager.priority_keywords_high a
    · rw [if_pos (hh.mpr h2)]
      refine ⟨?_, ?_, ?_, ?_⟩ <;> simp [h1, h2]
    · rw [if_neg (fun hc => h2 (hh.mp hc))]
      by_cases h3 : a.journal ∈ QueueManager.high_impact_journals
      · rw [if_pos h3]
        refine ⟨?_, ?_, ?_, ?_⟩ <;> simp [h1, h2, h3]
      · rw [if_neg h3]
        by_cases h4 : strContains a.link "d41586" = true
        · rw [if_pos h4]
          refine ⟨?_, ?_, ?_, ?_⟩ <;> simp [h1, h2, h3, h4]
        · rw [if_neg h4]
          rw [Bool.not_eq_true] at h4
          refine ⟨?_, ?_, ?_, ?_⟩ <;> simp [h1, h2, h3, h4]

/-- C7: an article passes filter_articles iff it came from the input list,
it is not dropped by the research-only URL test, no exclude keyword occurs
in the case-folded corpus (title, abstract, raw summary, keywords), and the
include list is empty or some include keyword occurs; in particular an
article matching both an include and an exclude keyword is dropped. -/
theorem filter_articles_spec (cfg : Pipeline.FilterConfig) (articles : List Article)
    (a : Article) :
    a ∈ Pipeline.filter_articles cfg articles ↔
      (a ∈ articles ∧
       ¬ (cfg.research_only = true ∧ strContains a.link "d41586" = true) ∧
       ¬ (∃ k ∈ cfg.excludeKw, strContains (Pipeline.search_corpus a) k.toLower = true) ∧
       (cfg.includeKw = [] ∨
        ∃ k ∈ cfg.includeKw, strContains (Pipeline.search_corpus a) k.toLower = true)) := by
  have e : Pipeline.keep_article cfg a =
      (if cfg.research_only ∧ strContains a.link "d41586" then false
       else if (cfg.excludeKw.map String.toLower).any
          (fun k => strContains (Pipeline.search_corpus a) k) then false
       else if (cfg.includeKw.map String.toLower) ≠ [] ∧
          ((cfg.includeKw.map String.toLower).any
            (fun k => strContains (Pipeline.search_corpus a) k)) = false then false
       else true) := rfl
  have hkeep : Pipeline.keep_article cfg a = true ↔
      (¬ (cfg.research_only = true ∧ strContains a.link "d41586" = true) ∧
       ¬ (∃ k ∈ cfg.excludeKw, strContains (Pipeline.search_corpus a) k.toLower = true) ∧
       (cfg.includeKw = [] ∨
        ∃ k ∈ cfg.includeKw, strContains (Pipeline.search_corpus a) k.toLower = true)) := by
    rw [e]
    have hex := any_map_toLower cfg.excludeKw (Pipeline.search_corpus a)
    have hin := any_map_toLower cfg.includeKw (Pipeline.search_corpus a)
    by_cases h1 : cfg.research_only = true ∧ strContains a.link "d41586" = true
    · rw [if_pos h1]
      simp [h1]
    · rw [if_neg h1]
      by_cases h2 : ∃ k ∈ cfg.excludeKw, strContains (Pipeline.search_corpus a) k.toLower = true
      · rw [if_pos (hex.mpr h2)]
        simp [h1, h2]
      · rw [if_neg (fun hc => h2 (hex.mp hc))]
        by_cases h3 : cfg.includeKw = []
        · rw [if_neg (by simp [h3])]
          simp [h1, h2, h3]
        · by_cases h4 : ∃ k ∈ cfg.includeKw, strContains (Pipeline.search_corpus a) k.toLower = true
          · rw [if_neg (fun hc => by
              rw [Bool.eq_false_iff] at hc
              exact hc.2 (hin.mpr h4))]
            simp [h1, h2, h4]
          · rw [if_pos ⟨by simpa using h3, by
              rw [Bool.eq_false_iff]
              exact fun hc => h4 (hin.mp hc)⟩]
            simp [h1, h2, h3, h4]
  rw [Pipeline.filter_articles, List.mem_filter, hkeep]

/-- C3 counterexample: the claim says an item whose `added_at` is unparsable
appears neither in the returned batch nor in the persisted remainder; but on
a queue holding one item whose `added_at` no parse accepts (the parse
argument `fun _ => none` models `datetime.fromisoformat` raising ValueError
on `not-a-timestamp`), get_batch returns that item in the batch — the
source's `except ValueError` branch keeps the record. -/
theorem get_batch_unparsable_in_batch_cex :
    stale_article ∈ (QueueManager.get_batch (fun _ => none) 100 7 10 [stale_article]).1 := by
  decide

/-- C3 (amended): get_batch discards — without restoring — every item whose
`added_at` parses to a timestamp older than `max_age_days`; an item whose
`added_at` is unparsable is retained (it stays in the batch or in the
persisted remainder) rather than discarded. -/
theorem get_batch_age_eviction (parse : String → Option Int) (now max_age_days : Int)
    (batch_size : Nat) (queue : List Article) (a : Article) (hmem : a ∈ queue) :
    (∀ t, parse a.added_at = some t → t < now - max_age_days →
      a ∉ (QueueManager.get_batch parse now max_age_days batch_size queue).1 ∧
      a ∉ (QueueManager.get_batch parse now max_age_days batch_size queue).2) ∧
    (parse a.added_at = none →
      a ∈ (QueueManager.get_batch parse now max_age_days batch_size queue).1 ∨
      a ∈ (QueueManager.get_batch parse now max_age_days batch_size queue).2) := by
  unfold QueueManager.get_batch
  dsimp only
  constructor
  · intro t hp hlt
    have hkeep : QueueManager.keep_current parse (now - max_age_days) a = false := by
      unfold QueueManager.keep_current
      rw [hp]
      exact decide_eq_false (by omega)
    constructor
    · intro hin
      have hf := List.take_subset _ _ hin
      have := (List.mem_filter.mp hf).2
      rw [hkeep] at this
      exact absurd this (by simp)
    · intro hin
      have hf := List.drop_subset _ _ hin
      have := (List.mem_filter.mp hf).2
      rw [hkeep] at this
      exact absurd this (by simp)
  · intro hp
    have hkeep : QueueManager.keep_current parse (now - max_age_days) a = true := by
      unfold QueueManager.keep_current
      rw [hp]
    have hf : a ∈ queue.filter (QueueManager.keep_current parse (now - max_age_days)) :=
      List.mem_filter.mpr ⟨hmem, hkeep⟩
    rw [← List.take_append_drop batch_size
      (queue.filter (QueueManager.keep_current parse (now - max_age_days)))] at hf
    exact List.mem_append.mp hf

/-- C3 witness: instantiates the amended theorem on a one-item queue whose
item parses to day 10 with cutoff day 93. -/
theorem get_batch_age_eviction_witness :
    old_article ∈ [old_article] ∧
    ((∀ t, demo_parse old_article.added_at = some t → t < 100 - 7 →
      old_article ∉ (QueueManager.get_batch demo_parse 100 7 10 [old_article]).1 ∧
      old_article ∉ (QueueManager.get_batch demo_parse 100 7 10 [old_article]).2) ∧
    (demo_parse old_article.added_at = none →
      old_article ∈ (QueueManager.get_batch demo_parse 100 7 10 [old_article]).1 ∨
      old_article ∈ (QueueManager.get_batch demo_parse 100 7 10 [old_article]).2)) :=
  ⟨by decide, get_batch_age_eviction demo_parse 100 7 10 [old_article] old_article (by decide)⟩

/-- C10: a candidate whose id is missing or empty is skipped entirely by
add_articles — the run on a candidate list containing it is identical, queue
and count, to the run on the list without it. -/
theorem add_articles_skips_invalid_id (clock : Nat → String)
    (queue xs ys : List Article) (a : Article) (ha : a.id.getD "" = "") :
    QueueManager.add_articles clock queue (xs ++ a :: ys) =
      QueueManager.add_articles clock queue (xs ++ ys) := by
  unfold QueueManager.add_articles
  rw [QueueManager.add_loop_erase_invalid clock ys a ha xs queue _ 0]

/-- C10 witness: a candidate carrying the empty-string id is dropped from a
singleton candidate list. -/
theorem add_articles_skips_invalid_id_witness :
    (invalid_article.id.getD "" = "") ∧
    QueueManager.add_articles demo_clock [] ([demo_article] ++ invalid_article :: []) =
      QueueManager.add_articles demo_clock [] ([demo_article] ++ []) :=
  ⟨by decide,
   add_articles_skips_invalid_id demo_clock [] [demo_article] [] invalid_article (by decide)⟩

/-- C4 counterexample: the claim says a feed entry lacking both guid and
link is treated as always-new and emitted on every run; but on a feed whose
single entry has neither, with an empty seen-set, the entry loop emits
nothing — and records nothing as seen. -/
theorem process_entries_empty_id_not_emitted_cex :
    (RSSFetcher.process_entries "2024-06-01T00:00:00" "Nature" "nature" "high"
      [ghost_entry] []).1 = [] ∧
    (RSSFetcher.process_entries "2024-06-01T00:00:00" "Nature" "nature" "high"
      [ghost_entry] []).2 = [] := by
  decide

/-- C4 (amended): a feed entry lacking both a guid and a link (so its
computed id is empty) cannot be deduplicated and is silently skipped: the
run behaves exactly as if the entry were absent — it is never emitted as a
candidate article and never recorded in the seen-set, regardless of the
checkpoint's contents. -/
theorem process_entries_empty_id_skipped (now_iso journal parser_cfg priority_cfg : String)
    (ys : List RSSFetcher.Entry) (e : RSSFetcher.Entry)
    (he : e.id.getD (e.link.getD "") = "") :
    ∀ (xs : List RSSFetcher.Entry) (seen : List (String × String)),
    RSSFetcher.process_entries now_iso journal parser_cfg priority_cfg (xs ++ e :: ys) seen =
      RSSFetcher.process_entries now_iso journal parser_cfg priority_cfg (xs ++ ys) seen
  | [], seen => by
    simp only [List.nil_append, RSSFetcher.process_entries]
    rw [if_neg (fun hc => hc.1 he)]
  | x :: xs, seen => by
    simp only [List.cons_append, RSSFetcher.process_entries]
    split
    · simp only [List.append_eq]
      rw [process_entries_empty_id_skipped now_iso journal parser_cfg priority_cfg ys e he xs _]
    · exact process_entries_empty_id_skipped now_iso journal parser_cfg priority_cfg ys e he xs seen

/-- C4 witness: the amended theorem applied to the guid-and-link-less entry
on an empty prefix and empty seen-set. -/
theorem process_entries_empty_id_skipped_witness :
    (ghost_entry.id.getD (ghost_entry.link.getD "") = "") ∧
    RSSFetcher.process_entries "2024-06-01T00:00:00" "Nature" "nature" "high"
        ([] ++ ghost_entry :: []) [] =
      RSSFetcher.process_entries "2024-06-01T00:00:00" "Nature" "nature" "high" ([] ++ []) [] :=
  ⟨by decide,
   process_entries_empty_id_skipped "2024-06-01T00:00:00" "Nature" "nature" "high"
     [] ghost_entry (by decide) [] []⟩

/-- C9: when the fetch or parse inside fetch_article_details fails (the
`details = none` outcome), the exception is caught at the function's own
boundary: the extracted fields (authors, affiliations, keywords) are left
untouched, the abstract falls back to the HTML-stripped feed summary exactly
when a non-empty feed summary exists, and the article record — its identity
fields intact — is still returned. -/
theorem fetch_article_details_failure (article : Article)
    (hurl : article.link ≠ "")
    (hres : ContentFetcher.is_research_article article.link article = true) :
    (ContentFetcher.fetch_article_details none article).authors = article.authors ∧
    (ContentFetcher.fetch_article_details none article).affiliations = article.affiliations ∧
    (ContentFetcher.fetch_article_details none article).keywords = article.keywords ∧
    (article.summary ≠ "" →
      (ContentFetcher.fetch_article_details none article).abstract =
        some (ContentFetcher.clean_html article.summary)) ∧
    (article.summary = "" →
      (ContentFetcher.fetch_article_details none article).abstract = article.abstract) ∧
    (ContentFetcher.fetch_article_details none article).id = article.id ∧
    (ContentFetcher.fetch_article_details none article).title = article.title ∧
    (ContentFetcher.fetch_article_details none article).link = article.link ∧
    (ContentFetcher.fetch_article_details none article).journal = article.journal ∧
    (ContentFetcher.fetch_article_details none article).summary = article.summary := by
  unfold ContentFetcher.fetch_article_details
  dsimp only
  rw [if_neg hurl, hres]
  by_cases hs : article.summary = ""
  · simp [hs]
  · simp [hs]

/-- C9 witness: the failure path on a concrete research article with a
non-empty feed summary. -/
theorem fetch_article_details_failure_witness :
    research_article_demo.link ≠ "" ∧
    ContentFetcher.is_research_article research_article_demo.link research_article_demo = true ∧
    ((ContentFetcher.fetch_article_details none research_article_demo).authors =
        research_article_demo.authors ∧
     (ContentFetcher.fetch_article_details none research_article_demo).affiliations =
        research_article_demo.affiliations ∧
     (ContentFetcher.fetch_article_details none research_article_demo).keywords =
        research_article_demo.keywords ∧
     (research_article_demo.summary ≠ "" →
       (ContentFetcher.fetch_article_details none research_article_demo).abstract =
         some (ContentFetcher.clean_html research_article_demo.summary)) ∧
     (research_article_demo.summary = "" →
       (ContentFetcher.fetch_article_details none research_article_demo).abstract =
         research_article_demo.abstract) ∧
     (ContentFetcher.fetch_article_details none research_article_demo).id =
        research_article_demo.id ∧
     (ContentFetcher.fetch_article_details none research_article_demo).title =
        research_article_demo.title ∧
     (ContentFetcher.fetch_article_details none research_article_demo).link =
        research_article_demo.link ∧
     (ContentFetcher.fetch_article_details none research_article_demo).journal =
        research_article_demo.journal ∧
     (ContentFetcher.fetch_article_details none research_article_demo).summary =
        research_article_demo.summary) :=
  ⟨by decide, by decide,
   fetch_article_details_failure research_article_demo (by decide) (by decide)⟩

/-- C8: summarize_article never returns the empty string, whatever the
article record (including one whose title, abstract, authors and journal are
all empty) and whatever the model call does: the result is the fixed
minimal-content message, the deterministic templated fallback summary, or a
model-generated string of at least the 50-character minimum length. -/
theorem summarize_article_never_empty (api : Option String) (article : Article) :
    Summarizer.summarize_article api article ≠ "" ∧
    (Summarizer.summarize_article api article = Summarizer.no_content_msg ∨
     Summarizer.summarize_article api article =
       Summarizer.generate_fallback_summary article.title
         (article.abstract.getD article.summary) article.authors article.journal ∨
     ∃ s, api = some s ∧ Summarizer.summarize_article api article = py_strip s ∧
       50 ≤ (py_strip s).length) := by
  rcases api with _ | s
  all_goals unfold Summarizer.summarize_article
  all_goals dsimp only
  · split
    · exact ⟨by decide, Or.inl rfl⟩
    · exact ⟨generate_fallback_summary_ne_empty _ _ _ _, Or.inr (Or.inl rfl)⟩
  · split
    · exact ⟨by decide, Or.inl rfl⟩
    · by_cases hempty : (if s = "" then "" else py_strip s) = ""
      · rw [if_pos hempty]
        exact ⟨generate_fallback_summary_ne_empty _ _ _ _, Or.inr (Or.inl rfl)⟩
      · rw [if_neg hempty]
        by_cases hlen : (if s = "" then "" else py_strip s).length < 50
        · rw [if_pos hlen]
          exact ⟨generate_fallback_summary_ne_empty _ _ _ _, Or.inr (Or.inl rfl)⟩
        · rw [if_neg hlen]
          have hs0 : ¬ s = "" := by
            intro h
            exact hempty (by rw [if_pos h])
          rw [if_neg hs0] at hempty hlen ⊢
          exact ⟨hempty, Or.inr (Or.inr ⟨s, rfl, rfl, by omega⟩)⟩

/-- C5: after add_articles, the persisted queue is sorted by priority
ascending with ties broken by `added_at` ascending (FIFO within a tier), and
the returned count equals the number of items the call actually appended
(final length minus initial length). -/
theorem add_articles_sorted_count (clock : Nat → String) (queue articles : List Article) :
    ((QueueManager.add_articles clock queue articles).1).Pairwise (fun a b =>
      a.priority.getD Priority.NORMAL.value < b.priority.getD Priority.NORMAL.value ∨
      (a.priority.getD Priority.NORMAL.value = b.priority.getD Priority.NORMAL.value ∧
        strLe a.added_at b.added_at = true)) ∧
    (QueueManager.add_articles clock queue articles).2 + queue.length =
      ((QueueManager.add_articles clock queue articles).1).length := by
  constructor
  · unfold QueueManager.add_articles
    dsimp only
    have hs : ((QueueManager.add_loop clock articles queue
        (queue.map fun a => a.id) 0).1.mergeSort QueueManager.key_le).Pairwise
        (fun a b => QueueManager.key_le a b = true) :=
      List.sorted_mergeSort key_le_trans key_le_total _
    exact hs.imp (fun h => (key_le_iff _ _).mp h)
  · unfold QueueManager.add_articles
    dsimp only
    rw [List.length_mergeSort]
    have := QueueManager.add_loop_length clock articles queue (queue.map fun x => x.id) 0
    omega

/-- C1: starting from a persisted queue with pairwise-distinct ids,
add_articles keeps ids pairwise distinct for any candidate list; and for a
single candidate with a truthy id, after one call the queue holds exactly
one entry with that id, and a second call with the same candidate adds
nothing and returns 0. -/
theorem add_articles_dedup (clock clock2 : Nat → String) (queue articles : List Article)
    (a : Article) (hq : (queue.map fun x => x.id).Nodup) (ha : a.id.getD "" ≠ "") :
    (((QueueManager.add_articles clock queue articles).1).map fun x => x.id).Nodup ∧
    (((QueueManager.add_articles clock queue [a]).1).map fun x => x.id).countP
      (fun i => decide (i = a.id)) = 1 ∧
    (QueueManager.add_articles clock2 (QueueManager.add_articles clock queue [a]).1 [a]).2 = 0 := by
  have hnodup1 : ∀ (cl : Nat → String) (arts : List Article),
      (((QueueManager.add_articles cl queue arts).1).map fun x => x.id).Nodup := by
    intro cl arts
    have h1 := QueueManager.add_loop_nodup cl arts queue (queue.map fun x => x.id) 0 hq
      (fun i hi => hi)
    unfold QueueManager.add_articles
    dsimp only
    exact ((List.mergeSort_perm _ QueueManager.key_le).map (fun x => x.id)).nodup_iff.mpr h1
  have hcount : (((QueueManager.add_articles clock queue [a]).1).map fun x => x.id).countP
      (fun i => decide (i = a.id)) = 1 := by
    unfold QueueManager.add_articles
    dsimp only
    rw [((List.mergeSort_perm _ QueueManager.key_le).map (fun x => x.id)).countP_eq]
    rw [QueueManager.add_loop_single]
    by_cases hmem : a.id ∈ (queue.map fun x => x.id)
    · rw [if_pos (Or.inr hmem)]
      exact List.count_eq_one_of_mem hq hmem
    · rw [if_neg (by
        rintro (hc | hc)
        · exact ha hc
        · exact hmem hc)]
      rw [List.map_append, List.countP_append]
      have h0 : (queue.map fun x => x.id).countP (fun i => decide (i = a.id)) = 0 :=
        List.countP_eq_zero.mpr (fun i hi hp => hmem (by rwa [of_decide_eq_true hp] at hi))
      rw [h0]
      simp [List.countP_cons]
  have hmem1 : a.id ∈ ((QueueManager.add_articles clock queue [a]).1).map fun x => x.id := by
    have hpos : 0 < (((QueueManager.add_articles clock queue [a]).1).map fun x => x.id).countP
        (fun i => decide (i = a.id)) := by
      rw [hcount]
      omega
    obtain ⟨i, hi, hp⟩ := List.countP_pos_iff.mp hpos
    rwa [← of_decide_eq_true hp]
  refine ⟨hnodup1 clock articles, hcount, ?_⟩
  set q1 := (QueueManager.add_articles clock queue [a]).1 with hq1
  unfold QueueManager.add_articles
  dsimp only
  rw [QueueManager.add_loop_single]
  rw [if_pos (Or.inr hmem1)]

/-- C1 witness: the dedup theorem on an empty initial queue and one concrete
candidate. -/
theorem add_articles_dedup_witness :
    ((([] : List Article)).map fun x => x.id).Nodup ∧
    (demo_article.id.getD "" ≠ "") ∧
    ((((QueueManager.add_articles demo_clock [] [demo_article]).1).map fun x => x.id).Nodup ∧
     (((QueueManager.add_articles demo_clock [] [demo_article]).1).map
        fun x => x.id).countP (fun i => decide (i = demo_article.id)) = 1 ∧
     (QueueManager.add_articles demo_clock
        (QueueManager.add_articles demo_clock [] [demo_article]).1 [demo_article]).2 = 0) :=
  ⟨by decide, by decide,
   add_articles_dedup demo_clock demo_clock [] [demo_article] demo_article
     (by decide) (by decide)⟩

/-- C6: on a queue with pairwise-distinct ids, two get_batch calls in a row
(no add in between, same clock reading) return batches with disjoint ids,
and the first batch, the second batch and the finally persisted remainder
concatenate — in order — to the original queue minus the age-evicted items. -/
theorem get_batch_destructive (parse : String → Option Int) (now max_age_days : Int)
    (n1 n2 : Nat) (queue : List Article)
    (hq : (queue.map fun x => x.id).Nodup) :
    (∀ a ∈ (QueueManager.get_batch parse now max_age_days n1 queue).1,
      ∀ b ∈ (QueueManager.get_batch parse now max_age_days n2
        (QueueManager.get_batch parse now max_age_days n1 queue).2).1, a.id ≠ b.id) ∧
    (QueueManager.get_batch parse now max_age_days n1 queue).1 ++
      ((QueueManager.get_batch parse now max_age_days n2
        (QueueManager.get_batch parse now max_age_days n1 queue).2).1 ++
       (QueueManager.get_batch parse now max_age_days n2
        (QueueManager.get_batch parse now max_age_days n1 queue).2).2) =
      queue.filter (QueueManager.keep_current parse (now - max_age_days)) := by
  have hfr : ((queue.filter (QueueManager.keep_current parse (now - max_age_days))).drop n1).filter
      (QueueManager.keep_current parse (now - max_age_days)) =
      (queue.filter (QueueManager.keep_current parse (now - max_age_days))).drop n1 :=
    List.filter_eq_self.mpr
      (fun a ha => (List.mem_filter.mp (List.drop_subset _ _ ha)).2)
  have hb2 : (QueueManager.get_batch parse now max_age_days n2
      (QueueManager.get_batch parse now max_age_days n1 queue).2) =
      (((queue.filter (QueueManager.keep_current parse (now - max_age_days))).drop n1).take n2,
       ((queue.filter (QueueManager.keep_current parse (now - max_age_days))).drop n1).drop n2) := by
    unfold QueueManager.get_batch
    dsimp only
    rw [hfr]
  constructor
  · intro a ha b hb
    have hfq : ((queue.filter (QueueManager.keep_current parse (now - max_age_days))).map
        fun x => x.id).Nodup :=
      ((List.filter_sublist queue).map (fun x => x.id)).nodup hq
    have hsplit : (((queue.filter (QueueManager.keep_current parse (now - max_age_days))).take n1).map
          (fun x => x.id) ++
        ((queue.filter (QueueManager.keep_current parse (now - max_age_days))).drop n1).map
          (fun x => x.id)).Nodup := by
      rw [← List.map_append, List.take_append_drop]
      exact hfq
    have hdisj := (List.nodup_append.mp hsplit).2.2
    rw [hb2] at hb
    have hamem : a.id ∈ ((queue.filter (QueueManager.keep_current parse (now - max_age_days))).take
        n1).map (fun x => x.id) := List.mem_map_of_mem _ ha
    have hbmem : b.id ∈ ((queue.filter (QueueManager.keep_current parse (now - max_age_days))).drop
        n1).map (fun x => x.id) :=
      List.mem_map_of_mem _ (List.take_subset _ _ hb)
    intro heq
    rw [heq] at hamem
    exact hdisj hamem hbmem
  · rw [hb2]
    dsimp only
    rw [List.take_append_drop]
    exact List.take_append_drop n1 _

/-- C6 witness: two singleton batches drained from a two-item queue of
distinct ids, both items enqueued on day 10 with cutoff day 5. -/
theorem get_batch_destructive_witness :
    (([old_article, fresh_article].map fun x => x.id).Nodup) ∧
    ((∀ a ∈ (QueueManager.get_batch demo_parse 12 7 1 [old_article, fresh_article]).1,
      ∀ b ∈ (QueueManager.get_batch demo_parse 12 7 1
        (QueueManager.get_batch demo_parse 12 7 1 [old_article, fresh_article]).2).1,
        a.id ≠ b.id) ∧
    (QueueManager.get_batch demo_parse 12 7 1 [old_article, fresh_article]).1 ++
      ((QueueManager.get_batch demo_parse 12 7 1
        (QueueManager.get_batch demo_parse 12 7 1 [old_article, fresh_article]).2).1 ++
       (QueueManager.get_batch demo_parse 12 7 1
        (QueueManager.get_batch demo_parse 12 7 1 [old_article, fresh_article]).2).2) =
      [old_article, fresh_article].filter (QueueManager.keep_current demo_parse (12 - 7))) :=
  ⟨by decide,
   get_batch_destructive demo_parse 12 7 1 1 [old_article, fresh_article] (by decide)⟩
